import Mathlib

/-!
Verification of the event_flow runtime (src/event_flow/core) against its
natural-language specification.  The Python source is shallowly embedded:
pure logic becomes Lean functions, the asyncio loop becomes explicit
traces of actions, and Python exceptions become `Except`/`Option` values.
-/

set_option autoImplicit false

namespace EventFlow

/-- Identity of a Python event class: a class id together with the id of its
parent class, if any.  Dispatch in `_EventEngine` keys on the exact class
(`event.__class__`), never on the parent, so `parent` exists only so that
claims about subclass relationships can be stated. -/
structure EvType where
  clsId : Nat
  parent : Option Nat
  deriving DecidableEq, Repr

/-- An event instance: its exact runtime class and an opaque payload
standing for `Event._data`. -/
structure Ev where
  ty : EvType
  payload : Nat
  deriving DecidableEq, Repr

/-- Python exception classes that the embedded code can raise. -/
inductive PyErr
  | typeError (msg : String)
  | attributeError (msg : String)
  | engineNotSetError
  | indexError
  | cancelledError
  deriving DecidableEq, Repr

/-- Handlers are identified by an id; their behaviour, where a claim needs
it, is a separate function from ids to results. -/
abbrev HandlerId := Nat

/-- `_EventEngine._handlers`: a `defaultdict(list)` from event class to the
ordered list of registered handlers, embedded as an association list in
insertion order. -/
abbrev HandlerTable := List (EvType × List HandlerId)

/-- Lookup in the handler table.  A missing key behaves like the
`defaultdict` default: the empty handler list. -/
def lookupHandlers (tbl : HandlerTable) (t : EvType) : List HandlerId :=
  match tbl with
  | [] => []
  | (t', hs) :: rest => if t' = t then hs else lookupHandlers rest t

/-- `_EventEngine.register_handler`: `self._handlers[event_type].extend(handlers)`
on a `defaultdict(list)` — append to the existing entry, or create one. -/
def registerHandler (tbl : HandlerTable) (t : EvType) (hs : List HandlerId) : HandlerTable :=
  match tbl with
  | [] => [(t, hs)]
  | (t', l) :: rest =>
    if t' = t then (t', l ++ hs) :: rest
    else (t', l) :: registerHandler rest t hs

/-- One step of the grouping loop in `_EventEngine.start`:
`events[event.__class__].append(event)` on a `defaultdict(list)`, whose
keys keep insertion order. -/
def addToGroup (gs : List (EvType × List Ev)) (e : Ev) : List (EvType × List Ev) :=
  match gs with
  | [] => [(e.ty, [e])]
  | (t, es) :: rest =>
    if t = e.ty then (t, es ++ [e]) :: rest
    else (t, es) :: addToGroup rest e

/-- The grouping performed by one drain round of `_EventEngine.start`:
fold the drained events, in arrival order, into per-class groups. -/
def groupByType (l : List Ev) : List (EvType × List Ev) :=
  l.foldl addToGroup []

/-- One iteration of the `while self._active` loop in `_EventEngine.start`.
`q` is the queue content when the iteration begins; `arrivals` are the
events that are appended to the queue while the iteration runs (they sit
behind `q`).  If the queue is empty the loop blocks in `get` until the
first arrival and processes it as a singleton batch.  Otherwise it reads
`qsize` once and performs exactly that many `get`s.  Returns the batches
handed to `process_event`, in order, and the queue content left for the
next iteration. -/
def engineRound (q arrivals : List Ev) : List (List Ev) × List Ev :=
  if q.isEmpty then
    match arrivals with
    | [] => ([], [])
    | e :: rest => ([[e]], rest)
  else
    let qsize := q.length
    let drained := (q ++ arrivals).take qsize
    (((groupByType drained).map Prod.snd), (q ++ arrivals).drop qsize)

/-- The observable outcome of `_EventEngine.process_event` on one batch:
the handler tasks it spawns with `asyncio.create_task` (fire and forget),
the log entries the engine itself writes, and the exception, if any, that
propagates to the dispatch loop.  The source has no `try` and no logging
call here; a spawned task's exception stays inside the task. -/
structure ProcessOut where
  invocations : List (HandlerId × List Ev)
  engineLog : List String
  raised : Option PyErr
  deriving DecidableEq, Repr

/-- `_EventEngine.process_event`: look up handlers of `event[0].__class__`
(an empty batch would raise `IndexError`), spawn one detached task per
handler, write nothing to the log, raise nothing. -/
def processEvent (tbl : HandlerTable) (batch : List Ev) : ProcessOut :=
  match batch with
  | [] => { invocations := [], engineLog := [], raised := some PyErr.indexError }
  | e :: _ =>
    { invocations := (lookupHandlers tbl e.ty).map (fun h => (h, batch))
      engineLog := []
      raised := none }

/-- The `for each in events.values(): self.process_event(each)` loop of one
round: dispatch every batch in turn through `process_event`, accumulating
spawned tasks and engine log entries.  An exception reaching the loop
(none can, in the source, except `IndexError` on an empty batch) stops
the remaining iterations, as in Python. -/
def dispatchRound (tbl : HandlerTable) (batches : List (List Ev)) : ProcessOut :=
  match batches with
  | [] => { invocations := [], engineLog := [], raised := none }
  | b :: rest =>
    let out := processEvent tbl b
    match out.raised with
    | some err =>
      { invocations := out.invocations, engineLog := out.engineLog, raised := some err }
    | none =>
      let tail := dispatchRound tbl rest
      { invocations := out.invocations ++ tail.invocations
        engineLog := out.engineLog ++ tail.engineLog
        raised := tail.raised }

/-- Run the detached handler tasks spawned by a round: each task evaluates
its handler's behaviour on its batch; the results live in the tasks, not
in the loop. -/
def taskResults (beh : HandlerId → List Ev → Except PyErr Unit) (out : ProcessOut) :
    List (Except PyErr Unit) :=
  out.invocations.map (fun p => beh p.1 p.2)

/-- A Python runtime value, as far as the `timer` decorator inspects it.
Python's `bool` is a subclass of `int`, so `isinstance(True, int)` holds. -/
inductive PyVal
  | vInt (n : Int)
  | vFloat (q : Rat)
  | vBool (b : Bool)
  | vStr (s : String)
  | vNone
  deriving DecidableEq, Repr

/-- `isinstance(x, (int, float))` as evaluated by the `timer` decorator;
`bool` passes because it subclasses `int`. -/
def isIntOrFloat : PyVal → Bool
  | PyVal.vInt _ => true
  | PyVal.vFloat _ => true
  | PyVal.vBool _ => true
  | _ => false

/-- The positivity predicate the specification asks for on intervals.
This is stated from the spec, for comparison; the source never tests it. -/
def isPositiveNumber : PyVal → Bool
  | PyVal.vInt n => decide (0 < n)
  | PyVal.vFloat q => decide (0 < q)
  | PyVal.vBool b => b
  | _ => false

/-- `TimerDetail(interval, run_at_once)` as stored on the decorated method. -/
structure TimerDetail where
  interval : PyVal
  run_at_once : Bool
  deriving DecidableEq, Repr

/-- The `timer(interval, run_at_once=True)` decorator, evaluated at class
definition time: it raises `TypeError` when `interval` is not an `int` or
`float`, and otherwise attaches `TimerDetail(interval, run_at_once)`. -/
def timer (interval : PyVal) (run_at_once : Bool) : Except PyErr TimerDetail :=
  if isIntOrFloat interval then
    Except.ok { interval := interval, run_at_once := run_at_once }
  else
    Except.error (PyErr.typeError "interval must be int or float")

/-- How an awaited computation inside `_AppRunner.start` can end: normal
return, an `Exception`, or an `asyncio.CancelledError` (which is not an
`Exception` and so is never caught by `except Exception`). -/
inductive POutcome
  | ok
  | exn
  | cancelled
  deriving DecidableEq, Repr

/-- Observable lifecycle actions of `_AppRunner.start`. -/
inductive Act
  | startupRun
  | launched
  | loggedError
  | exitRun
  deriving DecidableEq, Repr

/-- `_AppRunner.start`, parametrised by the outcome of the awaited startup
hook and the outcome of the concurrent timers/workers phase.  The body is
`try: await gather(before_start); await gather(all_tasks)` followed by
`except Exception: logger.exception(e)` and `finally: await self._app.exit()`.
Returns the trace of actions and the outcome that escapes to the caller. -/
def appRunnerStart (startup phase : POutcome) : List Act × POutcome :=
  let body : List Act × POutcome :=
    match startup with
    | POutcome.ok => ([Act.startupRun, Act.launched], phase)
    | s => ([Act.startupRun], s)
  let handled : List Act × POutcome :=
    match body.2 with
    | POutcome.exn => (body.1 ++ [Act.loggedError], POutcome.ok)
    | r => (body.1, r)
  (handled.1 ++ [Act.exitRun], handled.2)

/-- Actions visible in one timer task built by `_AppRunner.build_timer`,
ignoring failures (those are modelled separately by `buildTimerRun`). -/
inductive TAct
  | wait
  | invoke
  deriving DecidableEq, Repr

/-- The `while True: await asyncio.sleep(interval); await call()` loop of
`build_timer`, observed for `n` iterations. -/
def timerLoop : Nat → List TAct
  | 0 => []
  | n + 1 => TAct.wait :: TAct.invoke :: timerLoop n

/-- The whole `build_timer` schedule observed for `n` loop iterations:
`if timer_detail.run_at_once: await call()` and then the interval loop. -/
def buildTimerTrace (run_at_once : Bool) (n : Nat) : List TAct :=
  (if run_at_once then [TAct.invoke] else []) ++ timerLoop n

/-- How one call of the timer callback ends. -/
inductive CallOutcome
  | ok
  | exn
  | cancelled
  deriving DecidableEq, Repr

/-- What happens during one iteration of the `build_timer` loop: the sleep
completes and the call ends with the given outcome, or the task is
cancelled while sleeping. -/
inductive IterOutcome
  | runs (c : CallOutcome)
  | cancelledInWait
  deriving DecidableEq, Repr

/-- Events visible from one `build_timer` task when failures are modelled. -/
inductive TRunAct
  | waited
  | invoked
  | waitCancelled
  | logWarn
  | logExn
  deriving DecidableEq, Repr

/-- The `build_timer` loop under a schedule of iteration outcomes: each
iteration sleeps then calls; an `Exception` from the call is caught by
`except Exception: logger.exception(e)` and ends the loop; a
`CancelledError` (in the call or in the sleep) is caught by
`except asyncio.CancelledError: logger.warning(...)` and ends the loop. -/
def runIters : List IterOutcome → List TRunAct
  | [] => []
  | IterOutcome.runs CallOutcome.ok :: rest =>
    TRunAct.waited :: TRunAct.invoked :: runIters rest
  | IterOutcome.runs CallOutcome.exn :: _ =>
    [TRunAct.waited, TRunAct.invoked, TRunAct.logExn]
  | IterOutcome.runs CallOutcome.cancelled :: _ =>
    [TRunAct.waited, TRunAct.invoked, TRunAct.logWarn]
  | IterOutcome.cancelledInWait :: _ =>
    [TRunAct.waitCancelled, TRunAct.logWarn]

/-- One whole `build_timer` coroutine: the optional immediate call (with
its own outcome, used only when `run_at_once` is set), then the loop.
The second component is the exception escaping the coroutine — always
`none`, because both `except` clauses catch and return. -/
def buildTimerRun (run_at_once : Bool) (first : CallOutcome) (iters : List IterOutcome) :
    List TRunAct × Option PyErr :=
  if run_at_once then
    match first with
    | CallOutcome.ok => (TRunAct.invoked :: runIters iters, none)
    | CallOutcome.exn => ([TRunAct.invoked, TRunAct.logExn], none)
    | CallOutcome.cancelled => ([TRunAct.invoked, TRunAct.logWarn], none)
  else (runIters iters, none)

/-- `asyncio.gather` over independently running timer coroutines: every
coroutine runs to its own completion; the first escaping exception, if
any, is what `gather` re-raises. -/
def gatherTimers (ts : List (List TRunAct × Option PyErr)) :
    List (List TRunAct) × Option PyErr :=
  (ts.map Prod.fst, ts.foldl (fun acc t => acc <|> t.2) none)

/-- An `Application` as far as engine wiring is concerned: whether
`set_engine` has been called on it, and its declared event-handler
bindings (`__event_registry__` entries, methods by id). -/
structure PyApp where
  engineSet : Bool
  registry : List (EvType × List HandlerId)
  deriving DecidableEq, Repr

/-- `Application.set_engine`. -/
def setEngine (a : PyApp) : PyApp :=
  { a with engineSet := true }

/-- Register every binding of an application registry into the shared
handler table, in registry order (`_AppRunner.register_handler` loop body). -/
def registerAll (tbl : HandlerTable) (reg : List (EvType × List HandlerId)) : HandlerTable :=
  reg.foldl (fun t p => registerHandler t p.1 p.2) tbl

/-- `_AppRunner.register_handler`: iterate over the registry and call
`self._app.engine.register_handler(...)` for each entry.  When the engine
back-reference is still `None`, the first iteration raises
`AttributeError` (attribute access on `None`), so an empty registry
raises nothing. -/
def runnerRegisterHandler (a : PyApp) (tbl : HandlerTable) : Except PyErr HandlerTable :=
  match a.registry with
  | [] => Except.ok tbl
  | _ :: _ =>
    if a.engineSet then Except.ok (registerAll tbl a.registry)
    else Except.error
      (PyErr.attributeError "NoneType object has no attribute register_handler")

/-- An application-side `self.engine.pub_event(event)` call: attribute
access on `None` when the back-reference is unset, otherwise append the
event to the shared queue. -/
def appPubEvent (a : PyApp) (queue : List Ev) (e : Ev) : Except PyErr (List Ev) :=
  if a.engineSet then Except.ok (queue ++ [e])
  else Except.error (PyErr.attributeError "NoneType object has no attribute pub_event")

/-- A callable handed to the orchestrator's hook registration: a plain
(blocking) function or a coroutine function, identified by an id. -/
inductive PyCallable
  | sync (id : Nat)
  | coroFn (id : Nat)
  deriving DecidableEq, Repr

/-- What a registration list actually stores: a coroutine function kept
as-is, a blocking function wrapped by `ensure_async` (offloaded to
`asyncio.to_thread` when called), or a blocking function stored verbatim. -/
inductive StoredCb
  | plainAsync (id : Nat)
  | offloaded (id : Nat)
  | rawSync (id : Nat)
  deriving DecidableEq, Repr

/-- `event_flow.core.tools.ensure_async`: coroutine functions pass through,
blocking callables are wrapped into an async function that runs them in a
worker thread. -/
def ensureAsyncCb : PyCallable → StoredCb
  | PyCallable.coroFn i => StoredCb.plainAsync i
  | PyCallable.sync i => StoredCb.offloaded i

/-- Storing a callable without any wrapping, as `AppEngine.exit` does. -/
def storeVerbatim : PyCallable → StoredCb
  | PyCallable.coroFn i => StoredCb.plainAsync i
  | PyCallable.sync i => StoredCb.rawSync i

/-- The orchestrator's callback lists (`AppEngine.before_start_callbacks`,
`AppEngine.exit_callbacks`). -/
structure EngineCbs where
  before_start_callbacks : List StoredCb
  exit_callbacks : List StoredCb
  deriving DecidableEq, Repr

/-- `AppEngine.before_start(func)`: appends `ensure_async(func)`. -/
def beforeStartReg (st : EngineCbs) (f : PyCallable) : EngineCbs :=
  { st with before_start_callbacks := st.before_start_callbacks ++ [ensureAsyncCb f] }

/-- `AppEngine.exit(func)`: appends `func` itself, with no `ensure_async`. -/
def engineExitReg (st : EngineCbs) (f : PyCallable) : EngineCbs :=
  { st with exit_callbacks := st.exit_callbacks ++ [storeVerbatim f] }

/-- The id carried by a stored callback. -/
def cbId : StoredCb → Nat
  | StoredCb.plainAsync i => i
  | StoredCb.offloaded i => i
  | StoredCb.rawSync i => i

/-- Whether a stored callback is a raw blocking callable (stored without
`ensure_async`), whose call returns a non-awaitable. -/
def isRawStored : StoredCb → Bool
  | StoredCb.rawSync _ => true
  | _ => false

/-- Observable actions of `AppEngine.run`. -/
inductive RAct
  | ranBefore (id : Nat)
  | phaseRan
  | ranSyncExitOnScheduler (id : Nat)
  | ranExitBody (id : Nat)
  | loggedError
  deriving DecidableEq, Repr

/-- The `exit_tasks = [each() for each in self.exit_callbacks]` list
comprehension followed by `await asyncio.gather(*exit_tasks)`.  Calling a
stored coroutine function only creates a coroutine; calling a raw
blocking callable runs its body immediately on the scheduler thread and
yields a non-awaitable, on which `gather` raises `TypeError` (so, with a
raw callback present, the coroutine bodies are not awaited). -/
def runExitCallbacks (exits : List StoredCb) : List RAct × Option PyErr :=
  let callActs : List RAct :=
    (exits.filter isRawStored).map (fun c => RAct.ranSyncExitOnScheduler (cbId c))
  if exits.any isRawStored then
    (callActs, some (PyErr.typeError "an awaitable is required"))
  else
    (callActs ++ exits.map (fun c => RAct.ranExitBody (cbId c)), none)

/-- `AppEngine.run`, parametrised by the outcome of the awaited concurrent
phase (`gather` of engine start and all application starts).  On an
`Exception` from the phase, the `except` block calls every exit callback,
gathers the results, and logs the error; `run` re-raises nothing unless
the `except` block itself raises (as it does on a raw blocking exit
callback).  A `CancelledError` is not an `Exception`, so it escapes
without running the exit callbacks.  Every callback in
`before_start_callbacks` went through `ensure_async`, so the startup
`gather` awaits them all. -/
def appEngineRun (st : EngineCbs) (phase : POutcome) : List RAct × Option PyErr :=
  let beforeActs : List RAct :=
    st.before_start_callbacks.map (fun c => RAct.ranBefore (cbId c))
  match phase with
  | POutcome.ok => (beforeActs ++ [RAct.phaseRan], none)
  | POutcome.cancelled => (beforeActs ++ [RAct.phaseRan], some PyErr.cancelledError)
  | POutcome.exn =>
    let ex := runExitCallbacks st.exit_callbacks
    match ex.2 with
    | some e => (beforeActs ++ [RAct.phaseRan] ++ ex.1, some e)
    | none => (beforeActs ++ [RAct.phaseRan] ++ ex.1 ++ [RAct.loggedError], none)

/-- The orchestrator's application/table state. -/
structure AppEngineState where
  apps : List PyApp
  tbl : HandlerTable
  deriving DecidableEq, Repr

/-- `AppEngine.__init__(apps)`: keep the list, create a fresh event engine
(empty handler table), and call `set_app_engine`, which only calls
`app.set_engine(self)` on each application — it never calls
`app.register_handler()`. -/
def appEngineInit (apps : List PyApp) : AppEngineState :=
  { apps := apps.map setEngine, tbl := [] }

/-- `AppEngine.add_app(app)` for one application: set the back-reference,
register its declared handlers into the shared table, append it. -/
def addApp (st : AppEngineState) (a : PyApp) : AppEngineState :=
  { apps := st.apps ++ [setEngine a], tbl := registerAll st.tbl a.registry }

/-- Invariant tying the groups built by a drain round to the drained list:
group keys are distinct, every group is exactly the arrival-ordered
filter of its type and is non-empty, types absent from the groups are
absent from the list, and the group sizes add up to the list length. -/
def GroupsInv (l : List Ev) (gs : List (EvType × List Ev)) : Prop :=
  (gs.map Prod.fst).Nodup ∧
  (∀ p ∈ gs, p.2 = l.filter (fun x => x.ty == p.1) ∧ p.2 ≠ []) ∧
  (∀ t : EvType, t ∉ gs.map Prod.fst → l.filter (fun x => x.ty == t) = []) ∧
  (gs.map (fun p => p.2.length)).sum = l.length

theorem addToGroup_cons_eq (t : EvType) (es : List Ev) (rest : List (EvType × List Ev))
    (e : Ev) (h : t = e.ty) :
    addToGroup ((t, es) :: rest) e = (t, es ++ [e]) :: rest := by
  simp [addToGroup, h]

theorem addToGroup_cons_ne (t : EvType) (es : List Ev) (rest : List (EvType × List Ev))
    (e : Ev) (h : ¬t = e.ty) :
    addToGroup ((t, es) :: rest) e = (t, es) :: addToGroup rest e := by
  simp [addToGroup, h]

theorem addToGroup_keys (gs : List (EvType × List Ev)) (e : Ev) :
    (addToGroup gs e).map Prod.fst =
      if e.ty ∈ gs.map Prod.fst then gs.map Prod.fst
      else gs.map Prod.fst ++ [e.ty] := by
  induction gs with
  | nil => simp [addToGroup]
  | cons q rest ih =>
    obtain ⟨t, es⟩ := q
    by_cases h : t = e.ty
    · subst h
      simp [addToGroup_cons_eq _ _ _ _ rfl]
    · have hne : ¬e.ty = t := fun hh => h hh.symm
      rw [addToGroup_cons_ne _ _ _ _ h]
      by_cases hm : e.ty ∈ rest.map Prod.fst
      · simp [ih, List.mem_cons, hm, hne]
      · simp [ih, List.mem_cons, hm, hne]

theorem addToGroup_sum (gs : List (EvType × List Ev)) (e : Ev) :
    ((addToGroup gs e).map (fun p => p.2.length)).sum =
      ((gs.map (fun p => p.2.length)).sum) + 1 := by
  induction gs with
  | nil => simp [addToGroup]
  | cons q rest ih =>
    obtain ⟨t, es⟩ := q
    by_cases h : t = e.ty
    · rw [addToGroup_cons_eq _ _ _ _ h]
      simp only [List.map_cons, List.sum_cons, List.length_append, List.length_singleton]
      omega
    · rw [addToGroup_cons_ne _ _ _ _ h]
      simp only [List.map_cons, List.sum_cons, ih]
      omega

theorem addToGroup_nonempty (gs : List (EvType × List Ev)) (e : Ev) :
    (∀ p ∈ gs, p.2 ≠ []) → ∀ p ∈ addToGroup gs e, p.2 ≠ [] := by
  induction gs with
  | nil =>
    intro _ p hp
    simp only [addToGroup, List.mem_singleton] at hp
    simp [hp]
  | cons q rest ih =>
    obtain ⟨t, es⟩ := q
    intro h p hp
    by_cases hte : t = e.ty
    · rw [addToGroup_cons_eq _ _ _ _ hte] at hp
      rcases List.mem_cons.mp hp with hp | hp
      · simp [hp]
      · exact h p (List.mem_cons_of_mem _ hp)
    · rw [addToGroup_cons_ne _ _ _ _ hte] at hp
      rcases List.mem_cons.mp hp with hp | hp
      · subst hp
        exact h (t, es) (List.mem_cons_self _ _)
      · exact ih (fun r hr => h r (List.mem_cons_of_mem _ hr)) p hp

theorem addToGroup_content (gs : List (EvType × List Ev)) (e : Ev) (l : List Ev) :
    (gs.map Prod.fst).Nodup →
    (∀ p ∈ gs, p.2 = l.filter (fun x => x.ty == p.1)) →
    (e.ty ∉ gs.map Prod.fst → l.filter (fun x => x.ty == e.ty) = []) →
    ∀ p ∈ addToGroup gs e, p.2 = (l ++ [e]).filter (fun x => x.ty == p.1) := by
  induction gs with
  | nil =>
    intro _ _ habs p hp
    simp only [addToGroup, List.mem_singleton] at hp
    subst hp
    have h0 : l.filter (fun x => x.ty == e.ty) = [] := habs (by simp)
    simp [List.filter_append, h0]
  | cons q rest ih =>
    obtain ⟨t, es⟩ := q
    intro hnd hc habs p hp
    have hnd' : (rest.map Prod.fst).Nodup := (List.nodup_cons.mp (by simpa using hnd)).2
    have htout : t ∉ rest.map Prod.fst := (List.nodup_cons.mp (by simpa using hnd)).1
    by_cases hte : t = e.ty
    · subst hte
      rw [addToGroup_cons_eq _ _ _ _ rfl] at hp
      rcases List.mem_cons.mp hp with hp | hp
      · subst hp
        have hes : es = l.filter (fun x => x.ty == e.ty) :=
          (hc (e.ty, es) (List.mem_cons_self _ _))
        simp [List.filter_append, ← hes]
      · have h1 : p.2 = l.filter (fun x => x.ty == p.1) :=
          hc p (List.mem_cons_of_mem _ hp)
        have hp1 : p.1 ∈ rest.map Prod.fst := List.mem_map_of_mem Prod.fst hp
        have hne : ¬(e.ty == p.1) = true := by
          intro hb
          exact htout (beq_iff_eq.mp hb ▸ hp1)
        simp [List.filter_append, h1, hne]
    · rw [addToGroup_cons_ne _ _ _ _ hte] at hp
      rcases List.mem_cons.mp hp with hp | hp
      · subst hp
        have h1 : es = l.filter (fun x => x.ty == t) :=
          hc (t, es) (List.mem_cons_self _ _)
        have hne : ¬(e.ty == t) = true := by
          intro hb
          exact hte (beq_iff_eq.mp hb).symm
        simp [List.filter_append, ← h1, hne]
      · refine ih hnd' (fun r hr => hc r (List.mem_cons_of_mem _ hr)) ?_ p hp
        intro hout
        refine habs ?_
        simp only [List.map_cons, List.mem_cons]
        rintro (h | h)
        · exact hte h.symm
        · exact hout h

theorem addToGroup_absent (gs : List (EvType × List Ev)) (e : Ev) (l : List Ev) :
    (∀ t : EvType, t ∉ gs.map Prod.fst → l.filter (fun x => x.ty == t) = []) →
    ∀ t : EvType, t ∉ (addToGroup gs e).map Prod.fst →
      (l ++ [e]).filter (fun x => x.ty == t) = [] := by
  intro habs t ht
  rw [addToGroup_keys] at ht
  by_cases hm : e.ty ∈ gs.map Prod.fst
  · rw [if_pos hm] at ht
    have h0 := habs t ht
    have hne : ¬(e.ty == t) = true := by
      intro hb
      exact ht (beq_iff_eq.mp hb ▸ hm)
    simp [List.filter_append, h0, hne]
  · rw [if_neg hm] at ht
    have ht1 : t ∉ gs.map Prod.fst := fun hh => ht (List.mem_append_left _ hh)
    have ht2 : ¬t = e.ty := fun hh => ht (by simp [hh])
    have h0 := habs t ht1
    have hne : ¬(e.ty == t) = true := by
      intro hb
      exact ht2 (beq_iff_eq.mp hb).symm
    simp [List.filter_append, h0, hne]

theorem groupsInv_step (l : List Ev) (gs : List (EvType × List Ev)) (e : Ev)
    (h : GroupsInv l gs) : GroupsInv (l ++ [e]) (addToGroup gs e) := by
  obtain ⟨hnd, hcne, habs, hsum⟩ := h
  refine ⟨?_, ?_, ?_, ?_⟩
  · rw [addToGroup_keys]
    by_cases hm : e.ty ∈ gs.map Prod.fst
    · rw [if_pos hm]
      exact hnd
    · rw [if_neg hm]
      simp [List.nodup_append, hnd, hm]
  · intro p hp
    refine ⟨addToGroup_content gs e l hnd (fun r hr => (hcne r hr).1)
      (fun hout => habs e.ty hout) p hp, ?_⟩
    exact addToGroup_nonempty gs e (fun r hr => (hcne r hr).2) p hp
  · exact addToGroup_absent gs e l habs
  · rw [addToGroup_sum, hsum]
    simp

theorem groupByType_inv (l : List Ev) : GroupsInv l (groupByType l) := by
  induction l using List.reverseRecOn with
  | nil =>
    refine ⟨by simp [groupByType], ?_, ?_, by simp [groupByType]⟩
    · intro p hp
      simp [groupByType] at hp
    · intro t _
      simp
  | append_singleton l e ih =>
    have hstep : groupByType (l ++ [e]) = addToGroup (groupByType l) e := by
      simp [groupByType, List.foldl_append]
    rw [hstep]
    exact groupsInv_step l (groupByType l) e ih

/-- Claim C1: in every round of the dispatch loop of `_EventEngine.start`,
an empty queue makes the loop block until one event arrives and process
it as a singleton batch; a non-empty queue is drained for exactly the
number of events present at the start of the round (events arriving
during the drain are left for the next round), the drained events are
grouped by exact type into batches preserving arrival order, and every
batch handed to `process_event` is non-empty. -/
theorem dispatch_round_correct (q arrivals : List Ev) :
    (q = [] → ∀ e rest, arrivals = e :: rest → engineRound q arrivals = ([[e]], rest)) ∧
    (q ≠ [] →
      (engineRound q arrivals).2 = arrivals ∧
      ((engineRound q arrivals).1.map List.length).sum = q.length ∧
      ∀ b ∈ (engineRound q arrivals).1,
        b ≠ [] ∧ ∃ t : EvType, b = q.filter (fun x => x.ty == t)) := by
  constructor
  · rintro rfl e rest rfl
    simp [engineRound]
  · intro hq
    have hne : ¬q.isEmpty := by simpa [List.isEmpty_iff] using hq
    have htake : (q ++ arrivals).take q.length = q := List.take_left q arrivals
    have hdrop : (q ++ arrivals).drop q.length = arrivals := List.drop_left q arrivals
    have hER : engineRound q arrivals = ((groupByType q).map Prod.snd, arrivals) := by
      simp [engineRound, hne, htake, hdrop]
    rw [hER]
    obtain ⟨hnd, hcne, habs, hsum⟩ := groupByType_inv q
    refine ⟨rfl, ?_, ?_⟩
    · simpa [List.map_map, Function.comp] using hsum
    · intro b hb
      obtain ⟨p, hp, rfl⟩ := List.mem_map.mp hb
      exact ⟨(hcne p hp).2, ⟨p.1, (hcne p hp).1⟩⟩

/-- Witness for `dispatch_round_correct`: the empty-queue case on one
arrival, and the non-empty-queue case on a three-event queue with one
mid-round arrival. -/
theorem dispatch_round_correct_witness :
    engineRound ([] : List Ev) [⟨⟨0, none⟩, 5⟩] = ([[⟨⟨0, none⟩, 5⟩]], []) ∧
    (engineRound [⟨⟨0, none⟩, 1⟩, ⟨⟨1, none⟩, 2⟩, ⟨⟨0, none⟩, 3⟩] [⟨⟨2, none⟩, 9⟩]).2 =
      [⟨⟨2, none⟩, 9⟩] := by
  constructor
  · exact (dispatch_round_correct [] [⟨⟨0, none⟩, 5⟩]).1 rfl ⟨⟨0, none⟩, 5⟩ [] rfl
  · exact ((dispatch_round_correct [⟨⟨0, none⟩, 1⟩, ⟨⟨1, none⟩, 2⟩, ⟨⟨0, none⟩, 3⟩]
      [⟨⟨2, none⟩, 9⟩]).2 (by decide)).1

/-- Claim C2 counterexample: the `timer` decorator accepts the non-positive
interval `-1` (it only checks `isinstance(interval, (int, float))`), so a
non-positive numeric interval is NOT rejected at registration, contrary
to the claim. -/
theorem timer_accepts_negative_interval :
    timer (PyVal.vInt (-1)) true =
      Except.ok { interval := PyVal.vInt (-1), run_at_once := true } ∧
    isPositiveNumber (PyVal.vInt (-1)) = false := by
  exact ⟨rfl, rfl⟩

/-- Claim C2 (amended): registration is rejected synchronously, with a
`TypeError`, exactly for intervals that are not `int`/`float` instances;
every numeric interval — positive, zero, or negative, including `bool`s,
which subclass `int` — is accepted.  No positivity check exists. -/
theorem timer_rejects_only_non_numeric (i : PyVal) (r : Bool) :
    (isIntOrFloat i = true →
      timer i r = Except.ok { interval := i, run_at_once := r }) ∧
    (isIntOrFloat i = false →
      timer i r = Except.error (PyErr.typeError "interval must be int or float")) := by
  constructor
  · intro h
    simp [timer, h]
  · intro h
    simp [timer, h]

/-- Witness for `timer_rejects_only_non_numeric`: a float interval is
accepted, a string interval raises `TypeError`. -/
theorem timer_rejects_only_non_numeric_witness :
    timer (PyVal.vFloat (1/2)) true =
      Except.ok { interval := PyVal.vFloat (1/2), run_at_once := true } ∧
    timer (PyVal.vStr "5") false =
      Except.error (PyErr.typeError "interval must be int or float") := by
  constructor
  · exact (timer_rejects_only_non_numeric (PyVal.vFloat (1/2)) true).1 rfl
  · exact (timer_rejects_only_non_numeric (PyVal.vStr "5") false).2 rfl

/-- Claim C3 counterexample: for a throwing handler registered on the
dispatched type, `process_event` spawns the handler as a detached task,
writes no log entry and catches nothing: the exception lives only in the
task's own result, refuting `caught and logged by the engine`. -/
theorem handler_exception_not_logged_by_engine :
    (processEvent [(⟨0, none⟩, [0])] [⟨⟨0, none⟩, 1⟩]).engineLog = [] ∧
    (processEvent [(⟨0, none⟩, [0])] [⟨⟨0, none⟩, 1⟩]).raised = none ∧
    taskResults (fun _ _ => Except.error (PyErr.typeError "boom"))
      (processEvent [(⟨0, none⟩, [0])] [⟨⟨0, none⟩, 1⟩]) =
      [Except.error (PyErr.typeError "boom")] := by
  exact ⟨rfl, rfl, rfl⟩

/-- Claim C3 (amended): a handler exception stays inside that handler's
detached task.  The dispatch loop receives no exception and writes no log
entry, and the spawned invocations are exactly one per registered handler
per batch, in order — independent of what any handler does, so one
failing handler changes nothing for the other handlers of its batch or
for later batches. -/
theorem handler_failure_isolated (tbl : HandlerTable) (batches : List (List Ev))
    (e0 : Ev) (hne : ∀ b ∈ batches, b ≠ []) :
    (dispatchRound tbl batches).raised = none ∧
    (dispatchRound tbl batches).engineLog = [] ∧
    (dispatchRound tbl batches).invocations =
      batches.flatMap
        (fun b => (lookupHandlers tbl (b.headD e0).ty).map (fun hid => (hid, b))) := by
  induction batches with
  | nil => exact ⟨rfl, rfl, rfl⟩
  | cons b rest ih =>
    obtain ⟨e, bs, rfl⟩ : ∃ e bs, b = e :: bs := by
      cases b with
      | nil => exact absurd rfl (hne [] (List.mem_cons_self _ _))
      | cons e bs => exact ⟨e, bs, rfl⟩
    have ih' := ih (fun r hr => hne r (List.mem_cons_of_mem _ hr))
    refine ⟨?_, ?_, ?_⟩
    · simp [dispatchRound, processEvent, ih'.1]
    · simp [dispatchRound, processEvent, ih'.2]
    · simp [dispatchRound, processEvent, ih'.2.2]

/-- Witness for `handler_failure_isolated`: two handlers on one type, two
batches; the loop sees no exception and spawns both handlers per batch. -/
theorem handler_failure_isolated_witness :
    (dispatchRound [(⟨0, none⟩, [5, 7])]
      [[⟨⟨0, none⟩, 1⟩, ⟨⟨0, none⟩, 2⟩], [⟨⟨0, none⟩, 3⟩]]).raised = none ∧
    (dispatchRound [(⟨0, none⟩, [5, 7])]
      [[⟨⟨0, none⟩, 1⟩, ⟨⟨0, none⟩, 2⟩], [⟨⟨0, none⟩, 3⟩]]).invocations =
      [[⟨⟨0, none⟩, 1⟩, ⟨⟨0, none⟩, 2⟩], [⟨⟨0, none⟩, 3⟩]].flatMap
        (fun b =>
          (lookupHandlers [(⟨0, none⟩, [5, 7])] (b.headD ⟨⟨0, none⟩, 0⟩).ty).map
            (fun hid => (hid, b))) := by
  have h := handler_failure_isolated [(⟨0, none⟩, [5, 7])]
    [[⟨⟨0, none⟩, 1⟩, ⟨⟨0, none⟩, 2⟩], [⟨⟨0, none⟩, 3⟩]] ⟨⟨0, none⟩, 0⟩ (by decide)
  exact ⟨h.1, h.2.2⟩

/-- Claim C6: dispatch matches the exact runtime class only: an event of
class B spawns exactly the handlers registered under key B, so a handler
registered only under A, with A ≠ B — in particular when B is a subclass
of A — is never invoked for a B event. -/
theorem exact_type_dispatch (tbl : HandlerTable) (A B : EvType) (hAB : A ≠ B)
    (hid : HandlerId) (honly : ∀ t : EvType, t ≠ A → hid ∉ lookupHandlers tbl t)
    (e : Ev) (he : e.ty = B) (rest : List Ev) :
    (processEvent tbl (e :: rest)).invocations.map Prod.fst = lookupHandlers tbl B ∧
    ∀ p ∈ (processEvent tbl (e :: rest)).invocations, p.1 ≠ hid := by
  constructor
  · simp only [processEvent, List.map_map]
    rw [he]
    exact List.map_id _
  · intro p hp
    simp only [processEvent, List.mem_map] at hp
    obtain ⟨h', hh', rfl⟩ := hp
    intro heq
    subst heq
    exact honly B (fun hh => hAB hh.symm) (he ▸ hh')

/-- Witness for `exact_type_dispatch`: handler 3 is registered under class
0 only; an event of class 1, declared as a subclass of class 0, spawns no
handlers at all. -/
theorem exact_type_dispatch_witness :
    lookupHandlers [((⟨0, none⟩ : EvType), [3])] ⟨1, some 0⟩ = [] ∧
    (processEvent [((⟨0, none⟩ : EvType), [3])]
      [⟨⟨1, some 0⟩, 0⟩]).invocations.map Prod.fst =
      lookupHandlers [((⟨0, none⟩ : EvType), [3])] ⟨1, some 0⟩ := by
  refine ⟨by decide, ?_⟩
  exact (exact_type_dispatch [((⟨0, none⟩ : EvType), [3])] ⟨0, none⟩ ⟨1, some 0⟩
    (by decide) 3
    (fun t ht => by
      simp only [lookupHandlers]
      intro hmem
      rw [if_neg (fun hh => ht hh.symm)] at hmem
      simp [lookupHandlers] at hmem)
    ⟨⟨1, some 0⟩, 0⟩ rfl []).1

/-- Claim C4: `_AppRunner.start` runs the shutdown hook (`exit`) exactly
once whatever the outcome of the startup hook and of the concurrent
timers/workers phase — normal completion, `Exception`, or cancellation —
because `await self._app.exit()` sits in the `finally` block; the startup
hook is the first action of every run, and timers/workers are launched
only when the startup gather completed normally. -/
theorem exit_hook_runs_once (s p : POutcome) :
    (appRunnerStart s p).1.count Act.exitRun = 1 ∧
    (appRunnerStart s p).1.head? = some Act.startupRun ∧
    (Act.launched ∈ (appRunnerStart s p).1 → s = POutcome.ok) := by
  cases s <;> cases p <;> decide

/-- Witness for `exit_hook_runs_once`: a cancelled phase and a failing
startup hook both run the shutdown hook exactly once. -/
theorem exit_hook_runs_once_witness :
    (appRunnerStart POutcome.ok POutcome.cancelled).1.count Act.exitRun = 1 ∧
    (appRunnerStart POutcome.exn POutcome.ok).1.count Act.exitRun = 1 ∧
    ((appRunnerStart POutcome.ok POutcome.ok).1.head? = some Act.startupRun) :=
  ⟨(exit_hook_runs_once POutcome.ok POutcome.cancelled).1,
   (exit_hook_runs_once POutcome.exn POutcome.ok).1,
   (exit_hook_runs_once POutcome.ok POutcome.ok).2.1⟩

theorem timerLoop_length (n : Nat) : (timerLoop n).length = 2 * n := by
  induction n with
  | zero => rfl
  | succ m ih =>
    simp only [timerLoop, List.length_cons, ih]
    omega

theorem timerLoop_drop (k n : Nat) : (timerLoop n).drop (2 * k) = timerLoop (n - k) := by
  induction k generalizing n with
  | zero => simp
  | succ k ih =>
    cases n with
    | zero => simp [timerLoop]
    | succ m =>
      have h2 : 2 * (k + 1) = 2 * k + 1 + 1 := by omega
      rw [h2]
      simp only [timerLoop, List.drop_succ_cons]
      rw [ih m]
      congr 1
      omega

/-- Claim C5: with `run_at_once` the timer invokes the callback exactly
once before the first interval wait and then once after each wait (the
trace alternates wait/invoke); without `run_at_once` nothing is invoked
before the first wait, and the first invocation comes after exactly one
full interval wait. -/
theorem timer_first_invocation (n : Nat) :
    buildTimerTrace true n = TAct.invoke :: timerLoop n ∧
    buildTimerTrace false n = timerLoop n ∧
    (0 < n → (buildTimerTrace false n).head? = some TAct.wait) ∧
    (∀ k : Nat, (timerLoop n).drop (2 * k) = timerLoop (n - k)) ∧
    (0 < n → timerLoop n = TAct.wait :: TAct.invoke :: timerLoop (n - 1)) := by
  refine ⟨rfl, rfl, ?_, fun k => timerLoop_drop k n, ?_⟩
  · intro hn
    cases n with
    | zero => exact absurd hn (by omega)
    | succ m => rfl
  · intro hn
    cases n with
    | zero => exact absurd hn (by omega)
    | succ m => rfl

/-- Witness for `timer_first_invocation`: two loop iterations observed. -/
theorem timer_first_invocation_witness :
    buildTimerTrace true 2 = TAct.invoke :: timerLoop 2 ∧
    (buildTimerTrace false 2).head? = some TAct.wait :=
  ⟨(timer_first_invocation 2).1, (timer_first_invocation 2).2.2.1 (by decide)⟩

theorem runIters_ok_lead (pre tail : List IterOutcome)
    (hpre : ∀ io ∈ pre, io = IterOutcome.runs CallOutcome.ok) :
    runIters (pre ++ tail) =
      (pre.flatMap fun _ => [TRunAct.waited, TRunAct.invoked]) ++ runIters tail := by
  induction pre with
  | nil => simp
  | cons io rest ih =>
    have hio : io = IterOutcome.runs CallOutcome.ok := hpre io (List.mem_cons_self _ _)
    subst hio
    simp only [List.cons_append, runIters, List.flatMap_cons, List.append_eq]
    rw [ih (fun r hr => hpre r (List.mem_cons_of_mem _ hr))]
    simp

theorem okTrace_count_invoked (pre : List IterOutcome) :
    ((pre.flatMap fun _ => [TRunAct.waited, TRunAct.invoked]).count TRunAct.invoked) =
      pre.length := by
  induction pre with
  | nil => rfl
  | cons io rest ih =>
    simp [List.flatMap_cons, List.count_append, ih, List.count_cons]

/-- Claim C7: a non-cancellation exception from a timer callback is logged
(`logger.exception`) and ends that timer permanently — the run is
unchanged by whatever further iterations were scheduled and the trace
ends at the log entry — while the coroutine returns normally (no escaping
exception), so a sibling timer or worker awaited by the same `gather`
keeps its own full run; a cancellation is logged as a warning
(`logger.warning`) and also terminates the timer cleanly. -/
theorem timer_callback_failure (r : Bool) (pre post post' : List IterOutcome)
    (sib : List TRunAct × Option PyErr)
    (hpre : ∀ io ∈ pre, io = IterOutcome.runs CallOutcome.ok) :
    buildTimerRun r CallOutcome.ok (pre ++ IterOutcome.runs CallOutcome.exn :: post) =
      buildTimerRun r CallOutcome.ok (pre ++ IterOutcome.runs CallOutcome.exn :: post') ∧
    (buildTimerRun r CallOutcome.ok
      (pre ++ IterOutcome.runs CallOutcome.exn :: post)).1.getLast? =
      some TRunAct.logExn ∧
    (buildTimerRun r CallOutcome.ok
      (pre ++ IterOutcome.runs CallOutcome.exn :: post)).1.count TRunAct.invoked =
      (if r then 1 else 0) + pre.length + 1 ∧
    (buildTimerRun r CallOutcome.ok (pre ++ IterOutcome.runs CallOutcome.exn :: post)).2 =
      none ∧
    (gatherTimers [buildTimerRun r CallOutcome.ok
      (pre ++ IterOutcome.runs CallOutcome.exn :: post), sib]).2 = sib.2 ∧
    (buildTimerRun r CallOutcome.ok
      (pre ++ IterOutcome.cancelledInWait :: post)).1.getLast? =
      some TRunAct.logWarn := by
  have hexn : runIters (pre ++ IterOutcome.runs CallOutcome.exn :: post) =
      (pre.flatMap fun _ => [TRunAct.waited, TRunAct.invoked]) ++
        [TRunAct.waited, TRunAct.invoked, TRunAct.logExn] := by
    rw [runIters_ok_lead pre _ hpre]
    rfl
  have hexn' : runIters (pre ++ IterOutcome.runs CallOutcome.exn :: post') =
      (pre.flatMap fun _ => [TRunAct.waited, TRunAct.invoked]) ++
        [TRunAct.waited, TRunAct.invoked, TRunAct.logExn] := by
    rw [runIters_ok_lead pre _ hpre]
    rfl
  have hcan : runIters (pre ++ IterOutcome.cancelledInWait :: post) =
      (pre.flatMap fun _ => [TRunAct.waited, TRunAct.invoked]) ++
        [TRunAct.waitCancelled, TRunAct.logWarn] := by
    rw [runIters_ok_lead pre _ hpre]
    rfl
  have hcnt : List.count TRunAct.invoked
      [TRunAct.waited, TRunAct.invoked, TRunAct.logExn] = 1 := rfl
  cases r with
  | false =>
    refine ⟨?_, ?_, ?_, rfl, ?_, ?_⟩
    · show (runIters (pre ++ IterOutcome.runs CallOutcome.exn :: post), (none : Option PyErr)) =
        (runIters (pre ++ IterOutcome.runs CallOutcome.exn :: post'), (none : Option PyErr))
      rw [hexn, hexn']
    · show (runIters (pre ++ IterOutcome.runs CallOutcome.exn :: post)).getLast? =
        some TRunAct.logExn
      rw [hexn, List.getLast?_append_cons]
      rfl
    · show (runIters (pre ++ IterOutcome.runs CallOutcome.exn :: post)).count
        TRunAct.invoked = 0 + pre.length + 1
      rw [hexn, List.count_append, okTrace_count_invoked, hcnt]
      omega
    · show (((none : Option PyErr) <|> (none : Option PyErr)) <|> sib.2) = sib.2
      rfl
    · show (runIters (pre ++ IterOutcome.cancelledInWait :: post)).getLast? =
        some TRunAct.logWarn
      rw [hcan, List.getLast?_append_cons]
      rfl
  | true =>
    refine ⟨?_, ?_, ?_, rfl, ?_, ?_⟩
    · show (TRunAct.invoked :: runIters (pre ++ IterOutcome.runs CallOutcome.exn :: post),
          (none : Option PyErr)) =
        (TRunAct.invoked :: runIters (pre ++ IterOutcome.runs CallOutcome.exn :: post'),
          (none : Option PyErr))
      rw [hexn, hexn']
    · show (TRunAct.invoked ::
          runIters (pre ++ IterOutcome.runs CallOutcome.exn :: post)).getLast? =
        some TRunAct.logExn
      rw [hexn, ← List.cons_append, List.getLast?_append_cons]
      rfl
    · show (TRunAct.invoked ::
          runIters (pre ++ IterOutcome.runs CallOutcome.exn :: post)).count
        TRunAct.invoked = 1 + pre.length + 1
      rw [hexn, ← List.cons_append, List.count_append, hcnt, List.count_cons,
        okTrace_count_invoked]
      simp
      omega
    · show (((none : Option PyErr) <|> (none : Option PyErr)) <|> sib.2) = sib.2
      rfl
    · show (TRunAct.invoked ::
          runIters (pre ++ IterOutcome.cancelledInWait :: post)).getLast? =
        some TRunAct.logWarn
      rw [hcan, ← List.cons_append, List.getLast?_append_cons]
      rfl

/-- Witness for `timer_callback_failure`: one successful iteration, then a
callback exception; one further scheduled iteration is never run. -/
theorem timer_callback_failure_witness :
    (buildTimerRun true CallOutcome.ok
      [IterOutcome.runs CallOutcome.ok, IterOutcome.runs CallOutcome.exn,
        IterOutcome.runs CallOutcome.ok]).1.getLast? = some TRunAct.logExn :=
  (timer_callback_failure true [IterOutcome.runs CallOutcome.ok]
    [IterOutcome.runs CallOutcome.ok] [] ([TRunAct.waited], none) (by decide)).2.1

/-- Claim C8: the "engine not set" error class (`EngineNotSetError`) exists
in exception.py and its docstring says it is raised when an Application
is used without an engine, but no code path raises it: registering
handlers or publishing with the back-reference unset fails with a plain
`AttributeError` from attribute access on `None`.  This theorem evaluates
the embedded code at the failing input. -/
theorem unset_engine_raises_attribute_error :
    runnerRegisterHandler { engineSet := false, registry := [(⟨0, none⟩, [0])] } [] =
      Except.error
        (PyErr.attributeError "NoneType object has no attribute register_handler") ∧
    runnerRegisterHandler { engineSet := false, registry := [(⟨0, none⟩, [0])] } [] ≠
      Except.error PyErr.engineNotSetError ∧
    appPubEvent { engineSet := false, registry := [] } [] ⟨⟨0, none⟩, 0⟩ =
      Except.error (PyErr.attributeError "NoneType object has no attribute pub_event") := by
  have h1 : runnerRegisterHandler { engineSet := false, registry := [(⟨0, none⟩, [0])] }
      ([] : HandlerTable) =
      Except.error
        (PyErr.attributeError "NoneType object has no attribute register_handler") := rfl
  refine ⟨h1, ?_, rfl⟩
  rw [h1]
  intro h
  injection h with h2
  exact PyErr.noConfusion h2

theorem any_isRaw_false (exits : List StoredCb) :
    (∀ c ∈ exits, isRawStored c = false) → exits.any isRawStored = false := by
  induction exits with
  | nil => intro _; rfl
  | cons c rest ih =>
    intro h
    simp only [List.any_cons, Bool.or_eq_false_iff]
    exact ⟨h c (List.mem_cons_self _ _), ih (fun r hr => h r (List.mem_cons_of_mem _ hr))⟩

theorem filter_isRaw_nil (exits : List StoredCb) :
    (∀ c ∈ exits, isRawStored c = false) → exits.filter isRawStored = [] := by
  induction exits with
  | nil => intro _; rfl
  | cons c rest ih =>
    intro h
    have h1 := h c (List.mem_cons_self _ _)
    have h2 := ih (fun r hr => h r (List.mem_cons_of_mem _ hr))
    simp [List.filter_cons, h1, h2]

theorem runExitCallbacks_async (exits : List StoredCb)
    (h : ∀ c ∈ exits, isRawStored c = false) :
    runExitCallbacks exits = (exits.map fun c => RAct.ranExitBody (cbId c), none) := by
  simp [runExitCallbacks, any_isRaw_false exits h, filter_isRaw_nil exits h]

/-- Claim C9 counterexample: `AppEngine.exit` stores a blocking callback
verbatim — not wrapped by `ensure_async` as `before_start` does — so the
stored form differs from the offload-policy form; and when the concurrent
phase raises with such a raw exit callback registered, the callback body
runs on the scheduler thread and `asyncio.gather` raises `TypeError` out
of `run`, instead of the callback being awaited under the offload policy. -/
theorem exit_callback_not_offloaded :
    (engineExitReg { before_start_callbacks := [], exit_callbacks := [] }
      (PyCallable.sync 7)).exit_callbacks = [StoredCb.rawSync 7] ∧
    ensureAsyncCb (PyCallable.sync 7) = StoredCb.offloaded 7 ∧
    StoredCb.rawSync 7 ≠ StoredCb.offloaded 7 ∧
    (appEngineRun { before_start_callbacks := [], exit_callbacks := [StoredCb.rawSync 7] }
      POutcome.exn).1 = [RAct.phaseRan, RAct.ranSyncExitOnScheduler 7] ∧
    (appEngineRun { before_start_callbacks := [], exit_callbacks := [StoredCb.rawSync 7] }
      POutcome.exn).2 = some (PyErr.typeError "an awaitable is required") := by
  refine ⟨rfl, rfl, ?_, rfl, rfl⟩
  intro h
  exact StoredCb.noConfusion h

/-- Claim C9 (amended): `onStartup` callbacks go through `ensure_async`
(blocking ones are offloaded), while `onExit` stores callbacks verbatim,
so blocking exit callbacks do not follow the offload policy; when the
concurrent phase raises an `Exception` and every registered exit callback
is natively awaitable, `run` calls them all, awaits them via `gather`,
logs the error afterwards, and returns without re-raising. -/
theorem engine_run_exit_path (st : EngineCbs) (f : PyCallable)
    (hasync : ∀ c ∈ st.exit_callbacks, isRawStored c = false) :
    (beforeStartReg st f).before_start_callbacks =
      st.before_start_callbacks ++ [ensureAsyncCb f] ∧
    (∀ i : Nat, ensureAsyncCb (PyCallable.sync i) = StoredCb.offloaded i) ∧
    (appEngineRun st POutcome.exn).2 = none ∧
    (appEngineRun st POutcome.exn).1 =
      (st.before_start_callbacks.map fun c => RAct.ranBefore (cbId c)) ++
        [RAct.phaseRan] ++
        (st.exit_callbacks.map fun c => RAct.ranExitBody (cbId c)) ++
        [RAct.loggedError] := by
  have hex := runExitCallbacks_async st.exit_callbacks hasync
  refine ⟨rfl, fun i => rfl, ?_, ?_⟩
  · simp [appEngineRun, hex]
  · simp [appEngineRun, hex]

/-- Witness for `engine_run_exit_path`: one offloaded startup callback and
one coroutine exit callback; the phase raises and `run` returns `none`. -/
theorem engine_run_exit_path_witness :
    (appEngineRun ⟨[StoredCb.offloaded 2], [StoredCb.plainAsync 4]⟩ POutcome.exn).2 =
      none :=
  (engine_run_exit_path ⟨[StoredCb.offloaded 2], [StoredCb.plainAsync 4]⟩
    (PyCallable.sync 9) (by decide)).2.2.1

theorem lookup_registerHandler (tbl : HandlerTable) (t t' : EvType) (hs : List HandlerId) :
    lookupHandlers (registerHandler tbl t hs) t' =
      if t' = t then lookupHandlers tbl t ++ hs else lookupHandlers tbl t' := by
  induction tbl with
  | nil =>
    by_cases h : t' = t
    · subst h
      simp [registerHandler, lookupHandlers]
    · have h2 : ¬t = t' := fun hh => h hh.symm
      simp [registerHandler, lookupHandlers, h, h2]
  | cons q rest ih =>
    obtain ⟨a, l⟩ := q
    by_cases hat : a = t
    · subst hat
      by_cases htp : t' = a
      · subst htp
        simp [registerHandler, lookupHandlers]
      · have h2 : ¬a = t' := fun hh => htp hh.symm
        simp [registerHandler, lookupHandlers, htp, h2]
    · have hreg : registerHandler ((a, l) :: rest) t hs =
          (a, l) :: registerHandler rest t hs := by
        simp [registerHandler, hat]
      rw [hreg]
      by_cases htp : a = t'
      · subst htp
        have h3 : ¬a = t := hat
        simp [lookupHandlers, h3, fun hh : a = t => hat hh]
      · simp [lookupHandlers, htp, ih, hat]

/-- Claim C10: `AppEngine.__init__` sets the engine back-reference on every
constructor-supplied application but registers none of their declared
handlers — the shared handler table stays empty, so every lookup is empty
and constructor-supplied applications receive no deliveries — while
`add_app` both sets the back-reference and registers the application's
declared bindings into the shared table. -/
theorem constructor_apps_not_registered (apps : List PyApp) (a : PyApp) :
    (∀ x ∈ (appEngineInit apps).apps, x.engineSet = true) ∧
    (appEngineInit apps).tbl = [] ∧
    (∀ ty : EvType, lookupHandlers (appEngineInit apps).tbl ty = []) ∧
    (∀ t hs, a.registry = [(t, hs)] →
      lookupHandlers (addApp (appEngineInit apps) a).tbl t = hs) ∧
    (∀ x ∈ (addApp (appEngineInit apps) a).apps, x.engineSet = true) := by
  refine ⟨?_, rfl, fun ty => rfl, ?_, ?_⟩
  · intro x hx
    obtain ⟨y, _, rfl⟩ := List.mem_map.mp hx
    rfl
  · intro t hs hreg
    show lookupHandlers (registerAll [] a.registry) t = hs
    rw [hreg]
    show lookupHandlers (registerHandler [] t hs) t = hs
    rw [lookup_registerHandler]
    simp [lookupHandlers]
  · intro x hx
    rcases List.mem_append.mp hx with hx | hx
    · obtain ⟨y, _, rfl⟩ := List.mem_map.mp hx
      rfl
    · rw [List.mem_singleton.mp hx]
      rfl

/-- Witness for `constructor_apps_not_registered`: a constructor-supplied
application with one declared binding yields an empty lookup; the same
application attached via `add_app` yields its handler list. -/
theorem constructor_apps_not_registered_witness :
    lookupHandlers
      (appEngineInit [{ engineSet := false, registry := [(⟨0, none⟩, [1])] }]).tbl
      ⟨0, none⟩ = [] ∧
    lookupHandlers (addApp (appEngineInit [])
      { engineSet := false, registry := [(⟨0, none⟩, [1])] }).tbl ⟨0, none⟩ = [1] :=
  ⟨(constructor_apps_not_registered
      [{ engineSet := false, registry := [(⟨0, none⟩, [1])] }]
      { engineSet := false, registry := [] }).2.2.1 ⟨0, none⟩,
   (constructor_apps_not_registered []
      { engineSet := false, registry := [(⟨0, none⟩, [1])] }).2.2.2.1
      ⟨0, none⟩ [1] rfl⟩

end EventFlow
